import Mathlib

/-!
Verification of the transcript pipeline (scripts/fetch-transcript.py,
scripts/edit-transcript.py, scripts/translate.py).

Shallow embedding conventions:
* Python floats carrying times become exact rationals.
* Python lists of segment dicts become lists of a Segment structure.
* Python strings become Lean strings; the handful of Python string
  operations used by the scripts (split, strip, index, slicing, in)
  are re-implemented on lists of characters so that they compute.
* The external Claude API is an uninterpreted oracle, passed in as a function.
* File existence becomes an Option argument; sys.exit(1) with a printed
  diagnostic becomes Except.error carrying the printed message.
-/

/-! ## Character-level utilities (Python string primitives) -/

/-- Whether the first list is a prefix of the second (used to detect a
substring occurrence at a given position). -/
def hasPrefixChars : List Char → List Char → Bool
  | [], _ => true
  | _ :: _, [] => false
  | p :: ps, c :: cs => p == c && hasPrefixChars ps cs

/-- First index at which pat occurs as a substring, if any.
Models the Python membership test (pat in s) together with s.index(pat). -/
def subFind (pat : List Char) : List Char → Option Nat
  | [] => if hasPrefixChars pat [] then some 0 else none
  | c :: cs =>
    if hasPrefixChars pat (c :: cs) then some 0
    else (subFind pat cs).map (· + 1)

/-- Python s.split(chr(10)): split on every newline, keeping empty pieces. -/
def splitLines : List Char → List (List Char)
  | [] => [[]]
  | c :: cs =>
    if c == '\n' then [] :: splitLines cs
    else
      match splitLines cs with
      | [] => [[c]]
      | g :: gs => (c :: g) :: gs

/-- The whitespace characters stripped by Python str.strip() (ASCII part). -/
def isPySpace (c : Char) : Bool :=
  c == ' ' || c == '\t' || c == '\n' || c == '\r' || c == '\x0b' || c == '\x0c'

/-- Python str.strip(): drop whitespace from both ends. -/
def pyStripChars (l : List Char) : List Char :=
  ((l.dropWhile isPySpace).reverse.dropWhile isPySpace).reverse

/-- String wrapper for pyStripChars. -/
def pyStrip (s : String) : String := String.mk (pyStripChars s.data)

/-- String wrapper for splitLines. -/
def pySplitLines (s : String) : List String := (splitLines s.data).map String.mk

/-- Python membership test: pat in s. -/
def containsSubstr (s pat : String) : Bool := (subFind pat.data s.data).isSome

/-- Python s.split(pat, 1)[1]: everything after the first occurrence of pat.
Only used by callers that have already checked that pat occurs. -/
def afterFirst (l : List Char) (pat : List Char) : List Char :=
  l.drop ((subFind pat l).getD 0 + pat.length)

/-- Concatenation of a list of strings, in order (Python string += in a loop). -/
def joinStrings : List String → String
  | [] => ""
  | s :: rest => s ++ joinStrings rest

/-! ## Data model: Segment (transcript JSON schema) -/

/-- One transcript segment: start (seconds), duration (seconds), text.
Source: the dicts produced by fetch-transcript.py (fetch_with_api,
fetch_with_ytdlp) and consumed by every other script. -/
structure Segment where
  start : ℚ
  duration : ℚ
  text : String

/-- End time of a segment: start + duration. -/
def endOf (s : Segment) : ℚ := s.start + s.duration

/-! ## SegmentMerger (fetch-transcript.py, merge_into_paragraphs) -/

/-- The loop body of merge_into_paragraphs (fetch-transcript.py lines
116-134): current is the accumulator, the list is the remaining input
(segments[1:]); the final accumulator is emitted unconditionally. -/
def mergeLoop (target_duration pause_threshold : ℚ) :
    Segment → List Segment → List Segment
  | current, [] => [current]
  | current, seg :: rest =>
    if (pause_threshold < seg.start - (current.start + current.duration) ∧
          10 ≤ current.duration) ∨
        target_duration ≤ current.duration then
      current :: mergeLoop target_duration pause_threshold seg rest
    else
      mergeLoop target_duration pause_threshold
        ⟨current.start, (seg.start + seg.duration) - current.start,
          current.text ++ " " ++ seg.text⟩ rest

/-- fetch-transcript.py lines 103-135, merge_into_paragraphs: callers use
target_duration = 30.0 and pause_threshold = 1.5. Empty input is returned
as is; otherwise the accumulator starts at the first segment. -/
def merge_into_paragraphs (segments : List Segment)
    (target_duration pause_threshold : ℚ) : List Segment :=
  match segments with
  | [] => []
  | s :: rest => mergeLoop target_duration pause_threshold s rest

/-- Ghost companion of mergeLoop: runs the identical branch decisions but
collects, for each emitted merged segment, the list of raw input segments
it consumed. grp holds the raw segments already folded into current. -/
def mergeGroups (target_duration pause_threshold : ℚ) :
    Segment → List Segment → List Segment → List (List Segment)
  | _current, grp, [] => [grp]
  | current, grp, seg :: rest =>
    if (pause_threshold < seg.start - (current.start + current.duration) ∧
          10 ≤ current.duration) ∨
        target_duration ≤ current.duration then
      grp :: mergeGroups target_duration pause_threshold seg [seg] rest
    else
      mergeGroups target_duration pause_threshold
        ⟨current.start, (seg.start + seg.duration) - current.start,
          current.text ++ " " ++ seg.text⟩ (grp ++ [seg]) rest

/-- The texts of a list of segments, space-separated (the text a merged
segment accumulates). -/
def joinTexts : List Segment → String
  | [] => ""
  | [s] => s.text
  | s :: rest => s.text ++ " " ++ joinTexts rest

/-- Time-ordered and non-overlapping: each segment ends no later than the
next one starts (data-model invariant of a transcript). -/
def timeOrdered : List Segment → Prop
  | [] => True
  | [_] => True
  | a :: b :: rest => a.start + a.duration ≤ b.start ∧ timeOrdered (b :: rest)

/-! ## WindowPlanner (edit-transcript.py lines 53-58 and translate.py
lines 40-45, chunk_segments; identical definitions, defaults 40 and 50) -/

/-- chunk_segments: slices of max_segments consecutive segments, in order.
Python builds segments[i : i + max_segments] for i = 0, max, 2*max, ...;
a step of 0 raises ValueError in Python, modelled here as no chunks. -/
def chunk_segments : List Segment → Nat → List (List Segment)
  | [], _ => []
  | s :: rest, max_segments =>
    if _h : max_segments = 0 then []
    else
      (s :: rest).take max_segments ::
        chunk_segments ((s :: rest).drop max_segments) max_segments
termination_by l _ => l.length
decreasing_by
  simp only [List.length_drop, List.length_cons]
  omega

/-! ## format_time and the Markdown rendering (fetch-transcript.py lines
21-27 and 146-153; translate.py lines 48-54 and 172-179) -/

/-- Python int() applied to a (here: rational-valued) number: truncation
toward zero. -/
def pyInt (q : ℚ) : ℤ := Int.tdiv q.num q.den

/-- Python // on floats: floor division, result still a number. -/
def pyFloorDiv (a b : ℚ) : ℚ := (⌊a / b⌋ : ℤ)

/-- Python % on floats: a - b * floor(a / b). -/
def pyMod (a b : ℚ) : ℚ := a - b * ((⌊a / b⌋ : ℤ) : ℚ)

/-- Python format spec 02d: decimal rendering left-padded with 0 to
width two. -/
def pad2 (n : ℤ) : String :=
  if (toString n).length < 2 then "0" ++ toString n else toString n

/-- format_time (fetch-transcript.py lines 21-27; the same function is
repeated in edit-transcript.py and translate.py): h = int(seconds // 3600),
m = int((seconds % 3600) // 60), s = int(seconds % 60); rendered as
h:mm:ss when h > 0 and m:ss otherwise. -/
def format_time (seconds : ℚ) : String :=
  let h := pyInt (pyFloorDiv seconds 3600)
  let m := pyInt (pyFloorDiv (pyMod seconds 3600) 60)
  let s := pyInt (pyMod seconds 60)
  if 0 < h then toString h ++ ":" ++ pad2 m ++ ":" ++ pad2 s
  else toString m ++ ":" ++ pad2 s

/-- Specification-side renderer: the same timestamp computed from the
whole number of elapsed seconds by integer division, as the spec words it
(H:MM:SS if hours > 0 else M:SS). Compared against format_time. -/
def format_time_spec (n : ℤ) : String :=
  if 0 < n / 3600 then
    toString (n / 3600) ++ ":" ++ pad2 (n % 3600 / 60) ++ ":" ++ pad2 (n % 60)
  else toString (n % 3600 / 60) ++ ":" ++ pad2 (n % 60)

/-- The Markdown lines built by save_transcript (fetch-transcript.py lines
148-151) and by translate.py main (lines 174-177): one entry per segment. -/
def transcript_lines (segments : List Segment) : List String :=
  segments.map (fun seg =>
    "**[" ++ format_time seg.start ++ "]** " ++ seg.text ++ "\n")

/-- The Markdown file content: newline-join of the per-segment lines. -/
def transcript_markdown (segments : List Segment) : String :=
  String.intercalate "\n" (transcript_lines segments)

/-! ## ContextCarrier: structural-role instruction (edit-transcript.py
lines 112-128) -/

/-- The instruction sent for chunk index 0. -/
def open_instruction : String :=
  "Generate a COMPLETE HTML document starting with <!DOCTYPE html>, " ++
  "including all CSS styles, the <header> section, and the first content sections. " ++
  "Do NOT close the </body> or </html> tags â€” more content will follow."

/-- The instruction sent for the last chunk of a multi-chunk run. -/
def close_instruction : String :=
  "Generate ONLY the <section> HTML elements for this chunk\x27s content. " ++
  "Do NOT include <!DOCTYPE>, <head>, <style>, or <header>. " ++
  "After the last section, add the closing <footer>, </body>, and </html> tags."

/-- The instruction sent for interior chunks. -/
def body_instruction : String :=
  "Generate ONLY the <section> HTML elements for this chunk\x27s content. " ++
  "Do NOT include <!DOCTYPE>, <head>, <style>, or <header>."

/-- edit-transcript.py lines 112-128: the if/elif/else selecting the
structural instruction. The index-0 test comes first, so it wins even when
the chunk is also the last one. Nat subtraction agrees with Python here
because the caller always has total_chunks at least 1. -/
def structure_instruction (chunk_index total_chunks : Nat) : String :=
  if chunk_index = 0 then open_instruction
  else if chunk_index = total_chunks - 1 then close_instruction
  else body_instruction

/-! ## ContextCarrier: style-reference instruction (edit-transcript.py
lines 90-103) -/

/-- Fixed text preceding the full reference HTML in the first-chunk
exemplar. -/
def reference_exemplar_intro : String :=
  "\n\nHere is a COMPLETE reference HTML from another episode. " ++
  "Match this EXACT style, CSS, and HTML structure:\n\n```html\n"

/-- Fixed text following the full reference HTML in the first-chunk
exemplar. -/
def reference_exemplar_outro : String := "\n```\n"

/-- The first-chunk reference instruction: the full reference HTML is
embedded between the fixed intro and outro. -/
def reference_exemplar (reference_html : String) : String :=
  reference_exemplar_intro ++ reference_html ++ reference_exemplar_outro

/-- The short consistency instruction sent on every later chunk. -/
def reference_consistency : String :=
  "\n\nContinue using the same HTML structure (sections, dialogue divs, " ++
  "speaker classes, blockquotes) as the previous chunks."

/-- edit-transcript.py lines 90-103: empty when no reference HTML was
loaded; the full exemplar on chunk 0; the short consistency note after. -/
def reference_instruction : Option String → Nat → String
  | none, _ => ""
  | some ref, chunk_index =>
    if chunk_index = 0 then reference_exemplar ref else reference_consistency

/-! ## Section-title extraction and the carried context
(edit-transcript.py lines 169-177 and the main loop, lines 241-257) -/

/-- One line of extract_section_titles: if the line contains both an
opening and a closing h2 tag, take the text between the end of the first
opening tag and the start of the first closing tag, rendered as a
dash-prefixed bullet. -/
def extract_title_line (l : List Char) : Option String :=
  if (subFind "<h2>".data l).isSome && (subFind "</h2>".data l).isSome then
    some ("- " ++ String.mk
      ((l.drop ((subFind "<h2>".data l).getD 0 + 4)).take
        ((subFind "</h2>".data l).getD 0 - ((subFind "<h2>".data l).getD 0 + 4))))
  else none

/-- extract_section_titles (edit-transcript.py lines 169-177): newline-join
of the bullets found on the individual lines of the fragment. -/
def extract_section_titles (html : String) : String :=
  String.intercalate "\n" ((splitLines html.data).filterMap extract_title_line)

/-- The previous_sections accumulator of the main loop (edit-transcript.py
lines 242-257), unrolled by window index. svc i prev is the oracle for the
external call of window i when the carried context is prev (all other
arguments of edit_transcript are fixed for the run). prevSections svc i is
the context supplied with the request of window i. -/
def prevSections (svc : Nat → String → String) : Nat → String
  | 0 => ""
  | i + 1 =>
    prevSections svc i ++
      extract_section_titles (svc i (prevSections svc i)) ++ "\n"

/-- The fragment produced for window i under oracle svc. -/
def fragAt (svc : Nat → String → String) (i : Nat) : String :=
  svc i (prevSections svc i)

/-! ## Episode metadata, translate_chunk, and the entry points
(translate.py lines 92-104 and 107-182; edit-transcript.py lines 180-268) -/

/-- Ghost predicate for the merge-coverage statement: the merged segment m
was produced from the consecutive raw group g exactly when m starts where
g starts, m ends where the last segment of g ends (so m.duration is the
end of the last consumed segment minus m.start), and the text of m is the
space-separated concatenation of the texts of g. -/
def GroupOK (g : List Segment) (m : Segment) : Prop :=
  g.head?.map Segment.start = some m.start ∧
  g.getLast?.map endOf = some (endOf m) ∧
  joinTexts g = m.text

/-- The optional meta.json object; every field is optional
(dict.get with a default). -/
structure EpisodeMeta where
  title : Option String
  number : Option String
  description : Option String
  duration : Option String

/-- The empty metadata dict that edit-transcript.py uses when meta.json is
absent. -/
def emptyMeta : EpisodeMeta := ⟨none, none, none, none⟩

/-- translate.py lines 134-142: the episode context string; when meta.json
is absent it stays at the sparse default. An empty description is falsy in
Python, so it is appended only when non-empty. -/
def translate_context (episode_num : String) (meta : Option EpisodeMeta) : String :=
  match meta with
  | none => "Episode " ++ episode_num
  | some m =>
    let base := "Episode " ++ m.number.getD episode_num ++ ": " ++ m.title.getD ""
    if m.description.getD "" ≠ "" then base ++ " - " ++ m.description.getD ""
    else base

/-- The post-processing of translate_chunk (translate.py lines 92-104):
zip the input segments with the lines of the stripped response; per pair,
keep start and duration and replace the text with the part after the first
closing bracket, stripped (or the whole line when no bracket occurs). -/
def translate_chunk_post (segments : List Segment) (translated_text : String) :
    List Segment :=
  (segments.zip (pySplitLines (pyStrip translated_text))).map
    (fun sl =>
      ⟨sl.1.start, sl.1.duration,
        if containsSubstr sl.2 "]" then
          pyStrip (String.mk (afterFirst sl.2.data "]".data))
        else sl.2⟩)

/-- translate.py main loop (lines 156-163): chunk, call the service per
chunk with the episode context, post-process, concatenate. svc c ctx is
the oracle for the raw response text of one chunk. -/
def translate_pipeline (segments : List Segment) (context : String)
    (svc : List Segment → String → String) : List Segment :=
  ((chunk_segments segments 50).map
    (fun c => translate_chunk_post c (svc c context))).flatten

/-- translate.py main, input-handling slice (lines 124-142 plus the loop):
a missing transcript.en.json is fatal with the printed diagnostic (the
process exits with code 1 before any service call); a missing meta.json
only degrades the episode context. -/
def translate_main_model (transcript : Option (List Segment))
    (episode_num source_path : String) (meta : Option EpisodeMeta)
    (svc : List Segment → String → String) : Except String (List Segment) :=
  match transcript with
  | none =>
    Except.error ("Error: No English transcript found at " ++ source_path)
  | some segments =>
    Except.ok (translate_pipeline segments (translate_context episode_num meta) svc)

/-- edit-transcript.py main loop (lines 238-261) at the fragment level:
one fragment per chunk, produced sequentially under the carried
previous_sections, joined with a blank line. svc meta i prev is the oracle
for the external call of chunk i. -/
def edit_pipeline (segments : List Segment) (meta : EpisodeMeta)
    (svc : EpisodeMeta → Nat → String → String) : String :=
  String.intercalate "\n\n"
    ((List.range (chunk_segments segments 40).length).map (fragAt (svc meta)))

/-- edit-transcript.py main, input-handling slice (lines 203-217 plus the
loop): a missing transcript.{lang}.json is fatal with the printed
diagnostic; a missing meta.json is replaced by the empty dict. -/
def edit_main_model (transcript : Option (List Segment))
    (lang source_path : String) (metaFile : Option EpisodeMeta)
    (svc : EpisodeMeta → Nat → String → String) : Except String String :=
  match transcript with
  | none =>
    Except.error ("Error: No " ++ lang ++ " transcript found at " ++ source_path)
  | some segments =>
    Except.ok (edit_pipeline segments (metaFile.getD emptyMeta) svc)

/-! # Theorems -/

/-! ## Helper lemmas about lists and strings -/

theorem getLast?_cons_ne {α : Type*} (a : α) (l : List α) (h : l ≠ []) :
    (a :: l).getLast? = l.getLast? := by
  cases l with
  | nil => exact absurd rfl h
  | cons b m => exact List.getLast?_cons_cons

theorem head?_append_ne {α : Type*} (l l' : List α) (h : l ≠ []) :
    (l ++ l').head? = l.head? := by
  cases l with
  | nil => exact absurd rfl h
  | cons b m => rfl

theorem joinTexts_cons (a : Segment) (l : List Segment) (h : l ≠ []) :
    joinTexts (a :: l) = a.text ++ " " ++ joinTexts l := by
  cases l with
  | nil => exact absurd rfl h
  | cons b m => rfl

theorem joinTexts_concat (l : List Segment) (h : l ≠ []) (x : Segment) :
    joinTexts (l ++ [x]) = joinTexts l ++ " " ++ x.text := by
  induction l with
  | nil => exact absurd rfl h
  | cons a l ih =>
    cases l with
    | nil => rfl
    | cons b m =>
      rw [List.cons_append, joinTexts_cons a ((b :: m) ++ [x]) (by simp),
        ih (by simp), joinTexts_cons a (b :: m) (by simp)]
      simp [String.append_assoc]

/-! ## Lemmas about mergeLoop and mergeGroups -/

theorem mergeLoop_ne_nil (t p : ℚ) (rest : List Segment) :
    ∀ cur, mergeLoop t p cur rest ≠ [] := by
  induction rest with
  | nil => intro cur; simp [mergeLoop]
  | cons seg rest ih =>
    intro cur
    rw [mergeLoop]
    split
    · simp
    · exact ih _

theorem mergeLoop_head_start (t p : ℚ) (rest : List Segment) :
    ∀ cur, (mergeLoop t p cur rest).head?.map Segment.start = some cur.start := by
  induction rest with
  | nil => intro cur; simp [mergeLoop]
  | cons seg rest ih =>
    intro cur
    rw [mergeLoop]
    split
    · simp
    · exact ih _

theorem mergeLoop_last_end (t p : ℚ) (rest : List Segment) :
    ∀ cur, (mergeLoop t p cur rest).getLast?.map endOf =
      ((cur :: rest).getLast?).map endOf := by
  induction rest with
  | nil => intro cur; simp [mergeLoop]
  | cons seg rest ih =>
    intro cur
    rw [mergeLoop]
    split
    · rw [getLast?_cons_ne _ _ (mergeLoop_ne_nil t p rest seg), ih seg,
        getLast?_cons_ne cur (seg :: rest) (by simp)]
    · rw [ih _]
      cases rest with
      | nil => simp [endOf]
      | cons x xs =>
        rw [getLast?_cons_ne _ (x :: xs) (by simp),
          getLast?_cons_ne cur (seg :: x :: xs) (by simp),
          getLast?_cons_ne seg (x :: xs) (by simp)]

theorem mergeLoop_texts (t p : ℚ) (rest : List Segment) :
    ∀ cur, joinTexts (mergeLoop t p cur rest) = joinTexts (cur :: rest) := by
  induction rest with
  | nil => intro cur; rfl
  | cons seg rest ih =>
    intro cur
    rw [mergeLoop]
    split
    · rw [joinTexts_cons _ _ (mergeLoop_ne_nil t p rest seg), ih seg,
        joinTexts_cons cur (seg :: rest) (by simp)]
    · rw [ih _]
      cases rest with
      | nil => rfl
      | cons x xs =>
        rw [joinTexts_cons _ (x :: xs) (by simp),
          joinTexts_cons cur (seg :: x :: xs) (by simp),
          joinTexts_cons seg (x :: xs) (by simp)]
        simp [String.append_assoc]

theorem mergeGroups_flatten (t p : ℚ) (rest : List Segment) :
    ∀ cur grp, (mergeGroups t p cur grp rest).flatten = grp ++ rest := by
  induction rest with
  | nil => intro cur grp; simp [mergeGroups]
  | cons seg rest ih =>
    intro cur grp
    rw [mergeGroups]
    split
    · simp [ih]
    · simp [ih]

theorem mergeGroups_mem_ne_nil (t p : ℚ) (rest : List Segment) :
    ∀ cur grp, grp ≠ [] → ∀ g ∈ mergeGroups t p cur grp rest, g ≠ [] := by
  induction rest with
  | nil =>
    intro cur grp h g hg
    simp [mergeGroups] at hg
    exact hg ▸ h
  | cons seg rest ih =>
    intro cur grp h g hg
    rw [mergeGroups] at hg
    split at hg
    · rcases List.mem_cons.mp hg with rfl | hg'
      · exact h
      · exact ih seg [seg] (by simp) g hg'
    · exact ih _ (grp ++ [seg]) (by simp) g hg

theorem mergeGroups_length (t p : ℚ) (rest : List Segment) :
    ∀ cur grp, (mergeGroups t p cur grp rest).length =
      (mergeLoop t p cur rest).length := by
  induction rest with
  | nil => intro cur grp; simp [mergeGroups, mergeLoop]
  | cons seg rest ih =>
    intro cur grp
    rw [mergeGroups, mergeLoop]
    split
    · simp [ih]
    · exact ih _ _

theorem GroupOK_extend (grp : List Segment) (cur seg : Segment)
    (h : GroupOK grp cur) :
    GroupOK (grp ++ [seg])
      ⟨cur.start, (seg.start + seg.duration) - cur.start,
        cur.text ++ " " ++ seg.text⟩ := by
  obtain ⟨h1, h2, h3⟩ := h
  have hgrp : grp ≠ [] := by
    intro e
    subst e
    simp at h1
  refine ⟨?_, ?_, ?_⟩
  · rw [head?_append_ne _ _ hgrp]
    exact h1
  · rw [List.getLast?_concat]
    simp [endOf]
  · rw [joinTexts_concat grp hgrp seg, h3]

theorem GroupOK_single (seg : Segment) : GroupOK [seg] seg :=
  ⟨rfl, rfl, rfl⟩

theorem mergeGroups_ok (t p : ℚ) (rest : List Segment) :
    ∀ cur grp, GroupOK grp cur →
      ∀ (k : Nat) (g : List Segment) (m : Segment),
        (mergeGroups t p cur grp rest)[k]? = some g →
        (mergeLoop t p cur rest)[k]? = some m → GroupOK g m := by
  induction rest with
  | nil =>
    intro cur grp h k g m hg hm
    rw [mergeGroups] at hg
    rw [mergeLoop] at hm
    cases k with
    | zero =>
      simp at hg hm
      exact hg ▸ hm ▸ h
    | succ n => simp at hg
  | cons seg rest ih =>
    intro cur grp h k g m hg hm
    rw [mergeGroups] at hg
    rw [mergeLoop] at hm
    by_cases hc : (p < seg.start - (cur.start + cur.duration) ∧
        10 ≤ cur.duration) ∨ t ≤ cur.duration
    · rw [if_pos hc] at hg hm
      cases k with
      | zero =>
        simp at hg hm
        exact hg ▸ hm ▸ h
      | succ n =>
        simp only [List.getElem?_cons_succ] at hg hm
        exact ih seg [seg] (GroupOK_single seg) n g m hg hm
    · rw [if_neg hc] at hg hm
      exact ih _ (grp ++ [seg]) (GroupOK_extend grp cur seg h) k g m hg hm

/-! ## Claim C7: merger edge cases and purity -/

/-- Claim C7: the segment merger is a pure deterministic fold (it is a
total Lean function of its arguments, with no state): empty input gives
empty output, a single-segment input is returned unchanged, and the input
list is never mutated (immutable values in this embedding; the Python code
also copies segments[0] with dict() before mutating the copy). -/
theorem merge_edge_cases :
    (∀ t p : ℚ, merge_into_paragraphs [] t p = []) ∧
    (∀ (s : Segment) (t p : ℚ), merge_into_paragraphs [s] t p = [s]) :=
  ⟨fun _ _ => rfl, fun _ _ _ => rfl⟩

/-! ## Claim C3: merge boundary rule -/

/-- Claim C3: the merger closes the accumulator and starts a new one at a
segment exactly when (the gap exceeds pause_threshold and the accumulated
duration is at least 10 seconds) or the accumulated duration reached
target_duration; otherwise the segment is merged in; the final accumulator
is always emitted. Concretely: with pause_threshold 1.5 a 2.0-second gap
after 12.0 seconds of speech splits, and with target_duration 30.0 a
continuous run splits once the accumulator covers at least 30 seconds. -/
theorem merge_boundary_rule :
    (∀ (t p : ℚ) (current seg : Segment) (rest : List Segment),
      mergeLoop t p current (seg :: rest) =
        if (p < seg.start - (current.start + current.duration) ∧
              10 ≤ current.duration) ∨ t ≤ current.duration then
          current :: mergeLoop t p seg rest
        else
          mergeLoop t p
            ⟨current.start, (seg.start + seg.duration) - current.start,
              current.text ++ " " ++ seg.text⟩ rest) ∧
    (∀ (t p : ℚ) (current : Segment), mergeLoop t p current [] = [current]) ∧
    merge_into_paragraphs [⟨0, 12, "x"⟩, ⟨14, 6, "y"⟩] 30 (3 / 2) =
      [⟨0, 12, "x"⟩, ⟨14, 6, "y"⟩] ∧
    merge_into_paragraphs [⟨0, 20, "x"⟩, ⟨20, 12, "y"⟩, ⟨32, 3, "z"⟩] 30 (3 / 2) =
      [⟨0, 32, "x y"⟩, ⟨32, 3, "z"⟩] := by
  refine ⟨fun t p current seg rest => by rw [mergeLoop],
    fun t p current => rfl, ?_, ?_⟩
  · norm_num [merge_into_paragraphs, mergeLoop]
  · norm_num [merge_into_paragraphs, mergeLoop]
    rfl

/-! ## Claim C4: merge coverage -/

/-- Claim C4: for a time-ordered, non-overlapping input, the merged output
partitions the input into consecutive non-empty groups; each merged
segment starts at the start of its group, ends at the end of the last
segment of its group (so its duration is the end of the last consumed
segment minus its own start), and carries the space-separated texts of its
group; the first merged start equals the first input start, the last
merged end equals the last input end, and the space-separated
concatenation of all texts is preserved, so every input text appears in
exactly one merged segment. -/
theorem merge_coverage (t p : ℚ) (segments : List Segment)
    (hord : timeOrdered segments) :
    ∃ gs : List (List Segment),
      gs.flatten = segments ∧
      (∀ g ∈ gs, g ≠ []) ∧
      gs.length = (merge_into_paragraphs segments t p).length ∧
      (∀ (k : Nat) (g : List Segment) (m : Segment),
        gs[k]? = some g →
        (merge_into_paragraphs segments t p)[k]? = some m → GroupOK g m) ∧
      (merge_into_paragraphs segments t p).head?.map Segment.start =
        segments.head?.map Segment.start ∧
      (merge_into_paragraphs segments t p).getLast?.map endOf =
        segments.getLast?.map endOf ∧
      joinTexts (merge_into_paragraphs segments t p) = joinTexts segments := by
  cases segments with
  | nil =>
    refine ⟨[], rfl, by simp, rfl, ?_, rfl, rfl, rfl⟩
    intro k g m hg _hm
    simp at hg
  | cons s rest =>
    have hunfold : merge_into_paragraphs (s :: rest) t p =
        mergeLoop t p s rest := rfl
    refine ⟨mergeGroups t p s [s] rest, ?_, ?_, ?_, ?_, ?_, ?_, ?_⟩
    · simpa using mergeGroups_flatten t p rest s [s]
    · exact mergeGroups_mem_ne_nil t p rest s [s] (by simp)
    · rw [hunfold]
      exact mergeGroups_length t p rest s [s]
    · rw [hunfold]
      exact mergeGroups_ok t p rest s [s] (GroupOK_single s)
    · rw [hunfold, mergeLoop_head_start t p rest s]
      simp
    · rw [hunfold]
      exact mergeLoop_last_end t p rest s
    · rw [hunfold]
      exact mergeLoop_texts t p rest s

/-- Witness for merge_coverage at a concrete, trivially time-ordered
input. -/
theorem merge_coverage_witness :
    ∃ gs : List (List Segment),
      gs.flatten = [(⟨0, 5, "a"⟩ : Segment)] ∧
      (∀ g ∈ gs, g ≠ []) ∧
      gs.length =
        (merge_into_paragraphs [(⟨0, 5, "a"⟩ : Segment)] 30 (3 / 2)).length ∧
      (∀ (k : Nat) (g : List Segment) (m : Segment),
        gs[k]? = some g →
        (merge_into_paragraphs [(⟨0, 5, "a"⟩ : Segment)] 30 (3 / 2))[k]? =
          some m → GroupOK g m) ∧
      (merge_into_paragraphs [(⟨0, 5, "a"⟩ : Segment)] 30 (3 / 2)).head?.map
          Segment.start =
        [(⟨0, 5, "a"⟩ : Segment)].head?.map Segment.start ∧
      (merge_into_paragraphs [(⟨0, 5, "a"⟩ : Segment)] 30 (3 / 2)).getLast?.map
          endOf =
        [(⟨0, 5, "a"⟩ : Segment)].getLast?.map endOf ∧
      joinTexts (merge_into_paragraphs [(⟨0, 5, "a"⟩ : Segment)] 30 (3 / 2)) =
        joinTexts [(⟨0, 5, "a"⟩ : Segment)] :=
  merge_coverage 30 (3 / 2) [⟨0, 5, "a"⟩] trivial

/-! ## Lemmas about chunk_segments -/

theorem chunk_segments_nil (m : Nat) : chunk_segments [] m = [] := by
  rw [chunk_segments]

theorem chunk_segments_flatten (l : List Segment) (m : Nat) (hm : m ≠ 0) :
    (chunk_segments l m).flatten = l := by
  induction l, m using chunk_segments.induct with
  | case1 m => simp [chunk_segments]
  | case2 s rest => exact absurd rfl hm
  | case3 s rest m h ih =>
    rw [chunk_segments]
    simp only [dif_neg h, List.flatten_cons]
    rw [ih hm]
    exact List.take_append_drop m (s :: rest)

theorem chunk_segments_mem (l : List Segment) (m : Nat) (hm : m ≠ 0) :
    ∀ c ∈ chunk_segments l m, c.length ≤ m ∧ c ≠ [] := by
  induction l, m using chunk_segments.induct with
  | case1 m => simp [chunk_segments]
  | case2 s rest => exact absurd rfl hm
  | case3 s rest m h ih =>
    intro c hc
    rw [chunk_segments] at hc
    simp only [dif_neg h, List.mem_cons] at hc
    rcases hc with rfl | hc
    · constructor
      · simp [List.length_take]
      · cases m with
        | zero => exact absurd rfl h
        | succ n => simp
    · exact ih hm c hc

theorem chunk_segments_full (l : List Segment) (m : Nat) (hm : m ≠ 0) :
    ∀ k : Nat, k + 1 < (chunk_segments l m).length →
      ∀ c : List Segment, (chunk_segments l m)[k]? = some c →
        c.length = m := by
  induction l, m using chunk_segments.induct with
  | case1 m =>
    intro k hk c hc
    simp [chunk_segments] at hk
  | case2 s rest => exact absurd rfl hm
  | case3 s rest m h ih =>
    intro k hk c hc
    rw [chunk_segments] at hk hc
    simp only [dif_neg h] at hk hc
    cases k with
    | zero =>
      simp only [List.getElem?_cons_zero, Option.some.injEq] at hc
      have hdrop : chunk_segments ((s :: rest).drop m) m ≠ [] := by
        intro e
        rw [List.length_cons, e] at hk
        simp at hk
      have hne : (s :: rest).drop m ≠ [] := by
        intro e
        exact hdrop (by rw [e, chunk_segments_nil])
      have hlen : m < (s :: rest).length := by
        have hpos : 0 < ((s :: rest).drop m).length := List.length_pos.mpr hne
        rw [List.length_drop] at hpos
        omega
      rw [← hc, List.length_take]
      omega
    | succ n =>
      simp only [List.getElem?_cons_succ] at hc
      simp only [List.length_cons] at hk
      exact ih hm n (by omega) c hc

/-! ## Claim C5: windowing exactness -/

/-- Claim C5: for every positive maximum window size, chunk_segments is an
order-preserving, non-overlapping partition: the chunk lengths sum to the
input length, the concatenation of the chunks is the input itself, every
chunk is non-empty with length at most the maximum, and every chunk other
than the last has length exactly the maximum. Determinism is inherent:
chunk_segments is a pure function of its two arguments. -/
theorem window_partition (segments : List Segment) (m : Nat) (hm : 1 ≤ m) :
    ((chunk_segments segments m).map List.length).sum = segments.length ∧
    (chunk_segments segments m).flatten = segments ∧
    (∀ c ∈ chunk_segments segments m, c.length ≤ m ∧ c ≠ []) ∧
    (∀ k : Nat, k + 1 < (chunk_segments segments m).length →
      ∀ c : List Segment, (chunk_segments segments m)[k]? = some c →
        c.length = m) := by
  have hm' : m ≠ 0 := by omega
  refine ⟨?_, chunk_segments_flatten segments m hm',
    chunk_segments_mem segments m hm', chunk_segments_full segments m hm'⟩
  have h2 := congrArg List.length (chunk_segments_flatten segments m hm')
  rw [List.length_flatten] at h2
  exact h2

/-- Witness for window_partition: three segments, windows of size two. -/
theorem window_partition_witness :
    ((chunk_segments [⟨0, 1, "a"⟩, ⟨1, 1, "b"⟩, ⟨2, 1, "c"⟩] 2).map
        List.length).sum =
      ([(⟨0, 1, "a"⟩ : Segment), ⟨1, 1, "b"⟩, ⟨2, 1, "c"⟩] : List Segment).length ∧
    (chunk_segments [⟨0, 1, "a"⟩, ⟨1, 1, "b"⟩, ⟨2, 1, "c"⟩] 2).flatten =
      [⟨0, 1, "a"⟩, ⟨1, 1, "b"⟩, ⟨2, 1, "c"⟩] ∧
    (∀ c ∈ chunk_segments [⟨0, 1, "a"⟩, ⟨1, 1, "b"⟩, ⟨2, 1, "c"⟩] 2,
      c.length ≤ 2 ∧ c ≠ []) ∧
    (∀ k : Nat,
      k + 1 < (chunk_segments [⟨0, 1, "a"⟩, ⟨1, 1, "b"⟩, ⟨2, 1, "c"⟩] 2).length →
      ∀ c : List Segment,
        (chunk_segments [⟨0, 1, "a"⟩, ⟨1, 1, "b"⟩, ⟨2, 1, "c"⟩] 2)[k]? = some c →
        c.length = 2) :=
  window_partition [⟨0, 1, "a"⟩, ⟨1, 1, "b"⟩, ⟨2, 1, "c"⟩] 2 (by decide)

/-! ## Claim C2: carried section titles -/

theorem joinStrings_append (a b : List String) :
    joinStrings (a ++ b) = joinStrings a ++ joinStrings b := by
  induction a with
  | nil => simp [joinStrings]
  | cons s rest ih =>
    simp [joinStrings, ih, String.append_assoc]

theorem prevSections_closed (svc : Nat → String → String) :
    ∀ i : Nat, prevSections svc i =
      joinStrings ((List.range i).map
        (fun j => extract_section_titles (fragAt svc j) ++ "\n")) := by
  intro i
  induction i with
  | zero => rfl
  | succ n ih =>
    rw [List.range_succ, List.map_append, joinStrings_append, ← ih]
    simp [joinStrings, prevSections, fragAt, String.append_empty,
      String.append_assoc]

/-- Claim C2: in a run with at least two windows, the carried context
supplied with the request of window i is exactly the concatenation, in
order, of the section titles extracted from the fragments of windows
0..i-1 (empty for window 0, which is why prevSections never references a
later window), and after window i the titles extracted from its fragment
are appended before window i+1 is dispatched. -/
theorem carried_titles (svc : Nat → String → String) (total i : Nat)
    (_htotal : 2 ≤ total) (_hi : i < total) :
    prevSections svc 0 = "" ∧
    prevSections svc i =
      joinStrings ((List.range i).map
        (fun j => extract_section_titles (fragAt svc j) ++ "\n")) ∧
    prevSections svc (i + 1) =
      prevSections svc i ++ extract_section_titles (fragAt svc i) ++ "\n" :=
  ⟨rfl, prevSections_closed svc i, rfl⟩

/-- Witness for carried_titles: two windows, the oracle always answers
with one h2 heading. -/
theorem carried_titles_witness :
    prevSections (fun _ _ => "<h2>T</h2>") 0 = "" ∧
    prevSections (fun _ _ => "<h2>T</h2>") 1 =
      joinStrings ((List.range 1).map
        (fun j => extract_section_titles
          (fragAt (fun _ _ => "<h2>T</h2>") j) ++ "\n")) ∧
    prevSections (fun _ _ => "<h2>T</h2>") 2 =
      prevSections (fun _ _ => "<h2>T</h2>") 1 ++
        extract_section_titles (fragAt (fun _ _ => "<h2>T</h2>") 1) ++ "\n" :=
  carried_titles (fun _ _ => "<h2>T</h2>") 2 1 (by decide) (by decide)

/-! ## Claim C6: style-reference injection -/

set_option maxRecDepth 4000 in
theorem reference_exemplar_ne (ref : String) :
    reference_exemplar ref ≠ reference_consistency := by
  intro h
  have hl := congrArg String.length h
  rw [reference_exemplar, String.length_append, String.length_append] at hl
  have hlt : reference_consistency.length <
      reference_exemplar_intro.length + reference_exemplar_outro.length := by
    decide
  omega

/-- Claim C6: when a style-reference document is configured, its full
content is attached only on window 0; every later window receives only the
short consistency instruction, never the full exemplar; with no reference
configured, the instruction is empty on every window. -/
theorem style_reference_injection (ref : String) (i : Nat) :
    reference_instruction none i = "" ∧
    reference_instruction (some ref) 0 = reference_exemplar ref ∧
    (0 < i →
      reference_instruction (some ref) i = reference_consistency ∧
      reference_instruction (some ref) i ≠ reference_exemplar ref) := by
  refine ⟨rfl, rfl, fun hi => ?_⟩
  have hne : i ≠ 0 := by omega
  rw [reference_instruction, if_neg hne]
  exact ⟨rfl, fun h => reference_exemplar_ne ref h.symm⟩

/-- Witness for style_reference_injection at a concrete reference document
and window 1. -/
theorem style_reference_injection_witness :
    reference_instruction (some "<p>x</p>") 1 = reference_consistency ∧
    reference_instruction (some "<p>x</p>") 1 ≠ reference_exemplar "<p>x</p>" :=
  (style_reference_injection "<p>x</p>" 1).2.2 (by decide)

/-! ## Claim C1: structural-role assignment -/

set_option maxRecDepth 8000 in
/-- Counterexample to claim C1 as stated: in a single-window run
(total_chunks = 1), window 0 does not receive a fully-closed
complete-document role; the index-0 branch wins and the instruction it
receives explicitly forbids closing the document. -/
theorem single_window_not_closed :
    structure_instruction 0 1 = open_instruction ∧
    containsSubstr open_instruction
      "Do NOT close the </body> or </html> tags" = true ∧
    open_instruction ≠ close_instruction :=
  ⟨rfl, by decide, by decide⟩

/-- Claim C1 amended: the index-0 test comes first in the if/elif/else, so
a single-window run gets the open-only instruction (complete opening, no
closing tags) rather than a fully-closed document; in a multi-window run,
window 0 gets the open-only instruction, the last window the close-only
instruction, and interior windows the body-only instruction. -/
theorem role_assignment_amended (total i : Nat) :
    (total = 1 → structure_instruction 0 total = open_instruction) ∧
    (2 ≤ total →
      structure_instruction 0 total = open_instruction ∧
      structure_instruction (total - 1) total = close_instruction ∧
      (0 < i → i + 1 < total → structure_instruction i total = body_instruction)) := by
  refine ⟨fun _ => rfl, fun h2 => ⟨rfl, ?_, fun hi hit => ?_⟩⟩
  · have hne : total - 1 ≠ 0 := by omega
    rw [structure_instruction, if_neg hne, if_pos rfl]
  · have h1 : i ≠ 0 := by omega
    have h2' : i ≠ total - 1 := by omega
    rw [structure_instruction, if_neg h1, if_neg h2']

/-- Witness for role_assignment_amended in a three-window run. -/
theorem role_assignment_amended_witness :
    structure_instruction 0 3 = open_instruction ∧
    structure_instruction 2 3 = close_instruction ∧
    structure_instruction 1 3 = body_instruction :=
  ⟨((role_assignment_amended 3 1).2 (by decide)).1,
    ((role_assignment_amended 3 1).2 (by decide)).2.1,
    ((role_assignment_amended 3 1).2 (by decide)).2.2 (by decide) (by decide)⟩

/-! ## Claim C9: missing-input handling -/

/-- Claim C9: in both transformation entry points, a missing source
transcript file is fatal: the run returns the user-visible diagnostic as
an error (exit code 1 in the scripts) and the result does not depend on
the transformation oracle, so no transformation call is made; a missing
metadata file alone is not an error: translate proceeds with the sparse
default context, and edit proceeds exactly as if the metadata file had
contained the empty object. -/
theorem input_missing_behavior :
    (∀ (ep sp : String) (meta : Option EpisodeMeta)
        (svc : List Segment → String → String),
      translate_main_model none ep sp meta svc =
        Except.error ("Error: No English transcript found at " ++ sp)) ∧
    (∀ (ep sp : String) (meta : Option EpisodeMeta)
        (svc svc' : List Segment → String → String),
      translate_main_model none ep sp meta svc =
        translate_main_model none ep sp meta svc') ∧
    (∀ (segs : List Segment) (ep sp : String)
        (svc : List Segment → String → String),
      translate_main_model (some segs) ep sp none svc =
        Except.ok (translate_pipeline segs ("Episode " ++ ep) svc)) ∧
    (∀ (lang sp : String) (metaFile : Option EpisodeMeta)
        (svc : EpisodeMeta → Nat → String → String),
      edit_main_model none lang sp metaFile svc =
        Except.error ("Error: No " ++ lang ++ " transcript found at " ++ sp)) ∧
    (∀ (lang sp : String) (metaFile : Option EpisodeMeta)
        (svc svc' : EpisodeMeta → Nat → String → String),
      edit_main_model none lang sp metaFile svc =
        edit_main_model none lang sp metaFile svc') ∧
    (∀ (segs : List Segment) (lang sp : String)
        (svc : EpisodeMeta → Nat → String → String),
      edit_main_model (some segs) lang sp none svc =
        edit_main_model (some segs) lang sp (some emptyMeta) svc) :=
  ⟨fun _ _ _ _ => rfl, fun _ _ _ _ _ => rfl, fun _ _ _ _ => rfl,
    fun _ _ _ _ => rfl, fun _ _ _ _ _ => rfl, fun _ _ _ _ => rfl⟩

/-! ## Claim C10: translate_chunk frame and silent truncation -/

/-- Claim C10: each output segment of the translate_chunk post-processing
keeps exactly the start and the duration of the input segment it is
zipped with (only text is replaced), and the output length is the minimum
of the number of input segments and the number of lines of the stripped
response, so when the service returns fewer lines than there are input
segments the trailing input segments are silently dropped. -/
theorem translate_chunk_frame (segments : List Segment) (txt : String) :
    (translate_chunk_post segments txt).length =
      min segments.length (pySplitLines (pyStrip txt)).length ∧
    (∀ k : Nat, ∀ hk : k < (translate_chunk_post segments txt).length,
      ∀ hk' : k < segments.length,
      (translate_chunk_post segments txt)[k].start = segments[k].start ∧
      (translate_chunk_post segments txt)[k].duration = segments[k].duration) ∧
    ((pySplitLines (pyStrip txt)).length < segments.length →
      (translate_chunk_post segments txt).length < segments.length) := by
  have hlen : (translate_chunk_post segments txt).length =
      min segments.length (pySplitLines (pyStrip txt)).length := by
    simp [translate_chunk_post]
  refine ⟨hlen, ?_, ?_⟩
  · intro k hk hk'
    have hkz : k < (segments.zip (pySplitLines (pyStrip txt))).length := by
      simpa [translate_chunk_post] using hk
    constructor
    · simp [translate_chunk_post, List.getElem_zip]
    · simp [translate_chunk_post, List.getElem_zip]
  · intro h
    rw [hlen]
    omega

/-- Witness for translate_chunk_frame: two segments, a one-line response;
the second segment is dropped. -/
theorem translate_chunk_frame_witness :
    (translate_chunk_post [⟨0, 2, "a"⟩, ⟨2, 2, "b"⟩] "hola").length <
      ([(⟨0, 2, "a"⟩ : Segment), ⟨2, 2, "b"⟩] : List Segment).length :=
  (translate_chunk_frame [⟨0, 2, "a"⟩, ⟨2, 2, "b"⟩] "hola").2.2 (by decide)

/-! ## Lemmas about pyInt, pyFloorDiv, pyMod and format_time -/

theorem pyInt_intCast (k : ℤ) : pyInt (k : ℚ) = k := by
  simp [pyInt, Rat.num_intCast, Rat.den_intCast, Int.tdiv_one]

theorem pyInt_eq_floor (q : ℚ) (h : 0 ≤ q) : pyInt q = ⌊q⌋ := by
  rw [pyInt, Rat.floor_def]
  exact Int.tdiv_eq_ediv (Rat.num_nonneg.mpr h) (Int.natCast_nonneg q.den)

theorem floorDivNatCast (q : ℚ) (n : ℕ) (h : 0 ≤ q) :
    ⌊q / ((n : ℕ) : ℚ)⌋ = ⌊q⌋ / ((n : ℕ) : ℤ) := by
  have h2 : 0 ≤ q / ((n : ℕ) : ℚ) := div_nonneg h (Nat.cast_nonneg n)
  rw [← Int.natCast_floor_eq_floor h, ← Int.natCast_floor_eq_floor h2,
    Nat.floor_div_nat q n]
  exact Int.ofNat_ediv _ _

theorem pyMod_nonneg (q : ℚ) (n : ℕ) (hn : 0 < n) :
    0 ≤ pyMod q ((n : ℕ) : ℚ) := by
  rw [pyMod, mul_comm]
  exact Int.sub_floor_div_mul_nonneg q (by exact_mod_cast hn)

theorem floor_pyMod (q : ℚ) (n : ℕ) (h : 0 ≤ q) :
    ⌊pyMod q ((n : ℕ) : ℚ)⌋ = ⌊q⌋ % ((n : ℕ) : ℤ) := by
  rw [pyMod]
  have hc : ((n : ℕ) : ℚ) * ((⌊q / ((n : ℕ) : ℚ)⌋ : ℤ) : ℚ) =
      ((((n : ℕ) : ℤ) * ⌊q / ((n : ℕ) : ℚ)⌋ : ℤ) : ℚ) := by
    push_cast
    ring
  rw [hc, Int.floor_sub_int, floorDivNatCast q n h, Int.emod_def]

theorem format_time_eq_spec (q : ℚ) (h : 0 ≤ q) :
    format_time q = format_time_spec ⌊q⌋ := by
  have h36 : ((3600 : ℚ)) = (((3600 : ℕ) : ℕ) : ℚ) := by norm_num
  have h60 : ((60 : ℚ)) = (((60 : ℕ) : ℕ) : ℚ) := by norm_num
  have hr0 : 0 ≤ pyMod q 3600 := by
    rw [h36]
    exact pyMod_nonneg q 3600 (by norm_num)
  have hh : pyInt (pyFloorDiv q 3600) = ⌊q⌋ / 3600 := by
    rw [pyFloorDiv, pyInt_intCast, h36, floorDivNatCast q 3600 h]
    norm_num
  have hrfloor : ⌊pyMod q 3600⌋ = ⌊q⌋ % 3600 := by
    rw [h36, floor_pyMod q 3600 h]
    norm_num
  have hm : pyInt (pyFloorDiv (pyMod q 3600) 60) = ⌊q⌋ % 3600 / 60 := by
    rw [pyFloorDiv, pyInt_intCast, h60, floorDivNatCast _ 60 hr0, hrfloor]
    norm_num
  have hs : pyInt (pyMod q 60) = ⌊q⌋ % 60 := by
    have h60r : 0 ≤ pyMod q 60 := by
      rw [h60]
      exact pyMod_nonneg q 60 (by norm_num)
    rw [pyInt_eq_floor _ h60r, h60, floor_pyMod q 60 h]
    norm_num
  simp only [format_time, format_time_spec, hh, hm, hs]

/-! ## Claim C8: Markdown rendering and timestamp format -/

/-- Claim C8: the Markdown rendering has exactly one line per segment, in
order, of the form asterisk-bracket-timestamp-bracket-asterisk-space-text,
and for a non-negative start the timestamp printed by format_time is
exactly the spec-side rendering of the whole elapsed seconds: hours,
then zero-padded minutes and seconds, with the hours field omitted (and
minutes unpadded) when the hours component is zero. Two concrete checks:
3661 seconds render as 1:01:01 and 62.5 seconds render as 1:02. -/
theorem markdown_rendering (segments : List Segment) (q : ℚ) :
    transcript_markdown segments =
      String.intercalate "\n" (transcript_lines segments) ∧
    (transcript_lines segments).length = segments.length ∧
    (∀ k : Nat, ∀ _hk : k < (transcript_lines segments).length,
      ∀ _hk' : k < segments.length,
      (transcript_lines segments)[k] =
        "**[" ++ format_time segments[k].start ++ "]** " ++
          segments[k].text ++ "\n") ∧
    (0 ≤ q → format_time q = format_time_spec ⌊q⌋) ∧
    format_time 3661 = "1:01:01" ∧
    format_time (125 / 2) = "1:02" := by
  refine ⟨rfl, by simp [transcript_lines], ?_, format_time_eq_spec q, ?_, ?_⟩
  · intro k hk hk'
    simp [transcript_lines]
  · rw [format_time_eq_spec 3661 (by norm_num),
      show ⌊(3661 : ℚ)⌋ = 3661 by norm_num]
    decide
  · rw [format_time_eq_spec (125 / 2) (by norm_num),
      show ⌊(125 / 2 : ℚ)⌋ = 62 by norm_num [Int.floor_eq_iff]]
    decide

/-- Witness for markdown_rendering: the line of a concrete one-segment
transcript and the refinement at a concrete non-negative time. -/
theorem markdown_rendering_witness :
    (transcript_lines [(⟨3661, 5, "hello"⟩ : Segment)]).get
        ⟨0, by simp [transcript_lines]⟩ =
      "**[" ++ format_time (Segment.start ⟨3661, 5, "hello"⟩) ++ "]** " ++
        Segment.text ⟨3661, 5, "hello"⟩ ++ "\n" ∧
    format_time (7323 / 2) = format_time_spec ⌊(7323 / 2 : ℚ)⌋ :=
  ⟨(markdown_rendering [⟨3661, 5, "hello"⟩] 0).2.2.1 0
      (by simp [transcript_lines]) (by simp),
    (markdown_rendering [] (7323 / 2)).2.2.2.1 (by norm_num)⟩
